import Mathlib

/-!
Shallow embedding of the setup script of the repository (src/setup.py).

The script talks to the outside world through two effects: spawning a
subprocess (captured exit code, stdout, stderr; a missing executable
surfaces as a FileNotFoundError) and testing whether a directory exists.
Both are modelled by an explicit environment `Env`.  Machine strings are
modelled as `String` / `List Char`; the regular-expression search and the
integer parsing of the host language are embedded as executable functions
over `List Char`, restricted to the ASCII character classes the script
actually meets.
-/

namespace EntidbSetup

/-- Result of one subprocess invocation: exit code, stdout, stderr.
Embeds the `tuple[int, str, str]` returned by `run_command` in src/setup.py. -/
structure CommandResult where
  exitCode : Int
  stdout : String
  stderr : String
deriving DecidableEq, Repr

/-- The ambient world of the script: `subproc cmd cwd` is the outcome of
spawning `cmd` (working directory `cwd`), where `Except.error ()` models the
FileNotFoundError raised when the executable cannot be located or started;
`pathExists` is the filesystem existence test used for package directories;
`repoRoot` is the resolved directory containing the script. -/
structure Env where
  subproc : List String → Option (List String) → Except Unit CommandResult
  pathExists : List String → Bool
  repoRoot : List String

/-- Embeds `run_command` (src/setup.py lines 20-31): pass the subprocess
result through, and turn FileNotFoundError into a synthetic result with
exit code 1, empty stdout, and a stderr naming the missing command.
Total by construction: no exception propagates upward. -/
def run_command (env : Env) (cmd : List String) (cwd : Option (List String)) : CommandResult :=
  match env.subproc cmd cwd with
  | Except.ok r => r
  | Except.error _ => ⟨1, "", "Command not found: " ++ cmd.headD ""⟩

/-- The whitespace class of the regular-expression escape and of string
stripping in the host language, restricted to ASCII. -/
def isPyWs (c : Char) : Bool :=
  c = ' ' || c = '\t' || c = '\n' || c = '\r' || c = '\x0b' || c = '\x0c'

/-- Strip the literal `Dart SDK version:` from the front of `s`;
`none` when `s` does not start with it. -/
def dropLit : List Char → List Char → Option (List Char)
  | [], s => some s
  | _ :: _, [] => none
  | c :: cs, d :: ds => if c = d then dropLit cs ds else none

/-- The characters of the fixed literal part of the version pattern. -/
def dartLit : List Char := "Dart SDK version:".toList

/-- Read the maximal nonempty run of digits at the head (the greedy match
of one `digits` group); `none` when the head is not a digit. -/
def readRun (l : List Char) : Option (List Char × List Char) :=
  match l.takeWhile Char.isDigit with
  | [] => none
  | d => some (d, l.dropWhile Char.isDigit)

/-- Consume one literal dot. -/
def expectDot : List Char → Option (List Char)
  | '.' :: r => some r
  | _ => none

/-- Try to match the pattern `Dart SDK version:` whitespace* digits . digits
. digits starting exactly at the head of `s`; on success return the three
digit runs (the capture group of the regular expression in
`check_dart_version`).  The character classes of the pattern are pairwise
disjoint, so the greedy match is deterministic: skip all whitespace, then
take each maximal digit run. -/
def matchVersionAt (s : List Char) : Option (List Char × List Char × List Char) :=
  (dropLit dartLit s).bind fun rest =>
  (readRun (rest.dropWhile isPyWs)).bind fun p1 =>
  (expectDot p1.2).bind fun r2 =>
  (readRun r2).bind fun p2 =>
  (expectDot p2.2).bind fun r4 =>
  (readRun r4).map fun p3 => (p1.1, p2.1, p3.1)

/-- Leftmost-match search of the version pattern, as `re.search` does:
try every start position from the left, first successful position wins. -/
def searchVersionTriple : List Char → Option (List Char × List Char × List Char)
  | [] => none
  | c :: rest =>
    match matchVersionAt (c :: rest) with
    | some t => some t
    | none => searchVersionTriple rest

/-- The text of the capture group: the three digit runs joined by dots. -/
def renderTriple (t : List Char × List Char × List Char) : String :=
  (t.1 ++ '.' :: t.2.1 ++ '.' :: t.2.2).asString

/-- Embeds `check_dart_version` (src/setup.py lines 34-45): run
`dart --version`; on non-zero exit return `none`; otherwise search the
concatenation of stdout and stderr for the version pattern and return the
text of the first match, or `none` when there is no match. -/
def check_dart_version (env : Env) : Option String :=
  let r := run_command env ["dart", "--version"] none
  if r.exitCode ≠ 0 then none
  else (searchVersionTriple (r.stdout ++ r.stderr).toList).map renderTriple

/-- Numeric value of a digit character. -/
def digitVal (c : Char) : Nat := c.toNat - 48

/-- Continue parsing the digit part of an integer literal of the host
language after its first digit: digits, with single underscores allowed
only between two digits.  `none` when the remaining text violates that
grammar. -/
def digitsAfter (acc : Nat) : List Char → Option Nat
  | [] => some acc
  | c :: rest =>
    if c = '_' then
      match rest with
      | [] => none
      | c2 :: rest2 =>
        if c2.isDigit then digitsAfter (acc * 10 + digitVal c2) rest2 else none
    else if c.isDigit then digitsAfter (acc * 10 + digitVal c) rest
    else none

/-- Parse the digit part of an integer literal of the host language:
nonempty, starts with a digit, single underscores only between digits. -/
def digitPart : List Char → Option Nat
  | [] => none
  | c :: rest => if c.isDigit then digitsAfter (digitVal c) rest else none

/-- Drop leading whitespace. -/
def dropWs (l : List Char) : List Char := l.dropWhile isPyWs

/-- Strip whitespace from both ends, as string stripping of the host
language does before integer conversion. -/
def trimWs (l : List Char) : List Char := dropWs ((dropWs l.reverse).reverse)

/-- Integer conversion after stripping: an optional single sign followed by
a digit part. -/
def pyIntCore (l : List Char) : Option Int :=
  match l with
  | [] => none
  | c :: rest =>
    if c = '+' then (digitPart rest).map (fun n => (n : Int))
    else if c = '-' then (digitPart rest).map (fun n => -(n : Int))
    else (digitPart (c :: rest)).map (fun n => (n : Int))

/-- Embeds the `int(x)` conversion applied to each component in
`version_tuple`: strip surrounding whitespace, accept an optional sign and
a digit part with single underscores between digits; `none` models the
ValueError raised on any other text. -/
def pyInt (l : List Char) : Option Int := pyIntCore (trimWs l)

/-- Embeds `version.split(".")` of the host language for the one-character
separator: split at every dot, keeping empty pieces, and the split of the
empty string is one empty piece. -/
def splitDot : List Char → List (List Char)
  | [] => [[]]
  | c :: rest =>
    if c = '.' then [] :: splitDot rest
    else
      match splitDot rest with
      | [] => [[c]]
      | h :: t => (c :: h) :: t

/-- Convert every component, failing on the first component `int(x)`
rejects, as the tuple comprehension in `version_tuple` does. -/
def intList : List (List Char) → Option (List Int)
  | [] => some []
  | c :: rest =>
    match pyInt c with
    | none => none
    | some n =>
      match intList rest with
      | none => none
      | some t => some (n :: t)

/-- Embeds `version_tuple` (src/setup.py lines 48-50): split on dots and
convert each component with `int`; `none` models the ValueError the
conversion raises on a malformed component. -/
def version_tuple (version : String) : Option (List Int) :=
  intList (splitDot version.toList)

/-- Strict lexicographic comparison of integer tuples as the host language
defines `<` on tuples: compare elementwise, and when one tuple is exhausted
first it is the smaller (a proper prefix is strictly less; there is no
zero-padding).  Embeds the comparison `version_tuple(dart_version) <
min_version` (src/setup.py line 85). -/
def pyTupleLt : List Int → List Int → Bool
  | [], [] => false
  | [], _ :: _ => true
  | _ :: _, [] => false
  | a :: as, b :: bs => if a < b then true else if b < a then false else pyTupleLt as bs

/-- The at-least relation the orchestrator enforces at the comparison site:
the minimum-version check passes exactly when `version_tuple(dart_version)
< min_version` is false. -/
def isAtLeast (actual minimum : List Int) : Bool := !(pyTupleLt actual minimum)

/-- Embeds `install_package_deps` (src/setup.py lines 53-59): run
`dart pub get` in the package directory; the Bool is the returned success
flag (exit code zero), and the second component is the captured stderr the
source interpolates into the failure line it prints, `none` on success. -/
def install_package_deps (env : Env) (path : List String) : Bool × Option String :=
  let r := run_command env ["dart", "pub", "get"] (some path)
  if r.exitCode ≠ 0 then (false, some r.stderr) else (true, none)

/-- The fixed minimum version `(3, 10, 1)` (src/setup.py line 84). -/
def min_version : List Int := [3, 10, 1]

/-- The fixed ordered package list (src/setup.py lines 95-99). -/
def packages : List String := ["entidb_sync_protocol", "entidb_sync_client", "entidb_sync_server"]

/-- The directory of one package: `repo_root / "packages" / package`. -/
def pkgPath (env : Env) (pkg : String) : List String :=
  env.repoRoot ++ ["packages", pkg]

/-- What `main` returns and reports: the exit status, the ordered
per-package outcomes (the success or failure status line printed for each
package), and the list of directories in which the installer was invoked. -/
structure SetupOutcome where
  exitCode : Int
  outcomes : List (String × Bool)
  installCalls : List (List String)
deriving DecidableEq, Repr

/-- The per-package loop of `main` (src/setup.py lines 101-114), carried
state: the running success flag, the recorded outcomes, the installer
invocations.  A missing directory records a failure and continues without
invoking the installer; otherwise the installer runs and its success flag
is recorded.  No short-circuit: the loop always continues to the next
package. -/
def setupLoop (env : Env) :
    List String → Bool × List (String × Bool) × List (List String) →
    Bool × List (String × Bool) × List (List String)
  | [], st => st
  | pkg :: rest, (success, outs, calls) =>
    let path := pkgPath env pkg
    if env.pathExists path then
      let res := install_package_deps env path
      setupLoop env rest (success && res.1, outs ++ [(pkg, res.1)], calls ++ [path])
    else
      setupLoop env rest (false, outs ++ [(pkg, false)], calls)

/-- Embeds `main` (src/setup.py lines 62-128).  `none` models the uncaught
ValueError that would escape if `version_tuple` rejected the detected
version text (the script catches nothing there); every other path returns
an exit status together with the recorded outcomes.  The toolchain checks
are fail-fast: probe absent or version below minimum return exit status 1
before any package is processed. -/
def main (env : Env) : Option SetupOutcome :=
  match check_dart_version env with
  | none => some ⟨1, [], []⟩
  | some dart_version =>
    match version_tuple dart_version with
    | none => none
    | some vt =>
      if pyTupleLt vt min_version then some ⟨1, [], []⟩
      else
        match setupLoop env packages (true, [], []) with
        | (success, outs, calls) => some ⟨if success then 0 else 1, outs, calls⟩

/-- Combined per-package success as the loop computes it: the directory
exists and the installer succeeded there. -/
def pkgOk (env : Env) (pkg : String) : Bool :=
  env.pathExists (pkgPath env pkg) && (install_package_deps env (pkgPath env pkg)).1

/-- Modelled from the spec: the standard componentwise numeric
less-or-equal (lexicographic, major first) on integer tuples, used to state
what the comparison of the source ought to agree with. -/
def numericLexLe : List Int → List Int → Bool
  | [], _ => true
  | _ :: _, [] => false
  | a :: as, b :: bs => if a < b then true else if b < a then false else numericLexLe as bs

/-- Modelled from the spec: a dot-separated component that is a plain
non-negative integer, written as a nonempty run of decimal digits. -/
def specIsNonNegIntLiteral (c : List Char) : Bool :=
  !c.isEmpty && c.all Char.isDigit

/-- Modelled from the spec: right-pad a tuple with zeros up to length n. -/
def padTo (l : List Int) (n : Nat) : List Int :=
  l ++ List.replicate (n - l.length) 0

/-- Modelled from the spec: the at-least relation obtained by right-padding
the shorter tuple with zeros before comparing componentwise. -/
def specIsAtLeastPadded (a b : List Int) : Bool :=
  numericLexLe (padTo b (max a.length b.length)) (padTo a (max a.length b.length))

/-- A world in which every subprocess spawn raises FileNotFoundError and no
package directory exists: the toolchain is absent. -/
def envAbsent : Env :=
  ⟨fun _ _ => Except.error (), fun _ => false, ["repo"]⟩

/-- A world with the toolchain installed at version 3.9.9 (below the
minimum) and every directory present; dependency resolution succeeds. -/
def envOld : Env :=
  ⟨fun cmd _ =>
      if cmd = ["dart", "--version"] then
        Except.ok ⟨0, "Dart SDK version: 3.9.9 (stable)\n", ""⟩
      else Except.ok ⟨0, "", ""⟩,
    fun _ => true, ["repo"]⟩

/-- A world with the toolchain at version 3.10.5, every package directory
present, and dependency resolution failing in the directory of the second
package only. -/
def envGood : Env :=
  ⟨fun cmd cwd =>
      if cmd = ["dart", "--version"] then
        Except.ok ⟨0, "Dart SDK version: 3.10.5 (stable)\n", ""⟩
      else if cwd = some ["repo", "packages", "entidb_sync_client"] then
        Except.ok ⟨65, "", "resolution failed"⟩
      else Except.ok ⟨0, "ok", ""⟩,
    fun _ => true, ["repo"]⟩

/-- C2: when the version probe returns absent, `main` terminates
immediately with exit status 1, records no package outcome, and never
invokes the installer (no install call is recorded). -/
theorem main_exits_one_when_toolchain_absent (env : Env)
    (h : check_dart_version env = none) :
    main env = some ⟨1, [], []⟩ := by
  unfold main
  rw [h]

theorem main_exits_one_when_toolchain_absent_witness :
    check_dart_version envAbsent = none ∧ main envAbsent = some ⟨1, [], []⟩ :=
  ⟨by decide, main_exits_one_when_toolchain_absent envAbsent (by decide)⟩

/-- C3: when the detected version parses to a tuple strictly below the
fixed minimum (3, 10, 1), `main` terminates immediately with exit status 1,
records no package outcome, and never invokes the installer. -/
theorem main_exits_one_when_version_below_min (env : Env) (v : String) (t : List Int)
    (hv : check_dart_version env = some v)
    (ht : version_tuple v = some t)
    (hlt : pyTupleLt t min_version = true) :
    main env = some ⟨1, [], []⟩ := by
  simp [main, hv, ht, hlt]

theorem main_exits_one_when_version_below_min_witness :
    check_dart_version envOld = some "3.9.9" ∧
      version_tuple "3.9.9" = some [3, 9, 9] ∧
      pyTupleLt [3, 9, 9] min_version = true ∧
      main envOld = some ⟨1, [], []⟩ :=
  ⟨by decide, by decide, by decide,
    main_exits_one_when_version_below_min envOld "3.9.9" [3, 9, 9]
      (by decide) (by decide) (by decide)⟩

/-- C5: `run_command` is a total function (it returns a `CommandResult` on
every input, never propagating the subprocess fault), and when the
executable cannot be located or started it returns the synthetic result
with exit code 1 (non-zero), empty stdout, and a stderr message naming the
missing command. -/
theorem run_command_synthetic_on_missing_executable (env : Env) (c : String)
    (cs : List String) (cwd : Option (List String))
    (h : env.subproc (c :: cs) cwd = Except.error ()) :
    run_command env (c :: cs) cwd = ⟨1, "", "Command not found: " ++ c⟩ ∧
      (run_command env (c :: cs) cwd).exitCode ≠ 0 ∧
      (run_command env (c :: cs) cwd).stdout = "" ∧
      (run_command env (c :: cs) cwd).stderr = "Command not found: " ++ c := by
  simp [run_command, h]

theorem run_command_synthetic_on_missing_executable_witness :
    envAbsent.subproc ("dart" :: ["--version"]) none = Except.error () ∧
      (run_command envAbsent ("dart" :: ["--version"]) none =
          ⟨1, "", "Command not found: " ++ "dart"⟩ ∧
        (run_command envAbsent ("dart" :: ["--version"]) none).exitCode ≠ 0 ∧
        (run_command envAbsent ("dart" :: ["--version"]) none).stdout = "" ∧
        (run_command envAbsent ("dart" :: ["--version"]) none).stderr =
          "Command not found: " ++ "dart") :=
  ⟨rfl, run_command_synthetic_on_missing_executable envAbsent "dart" ["--version"] none rfl⟩

/-- C9: the success flag of `install_package_deps` is true exactly when the
dependency-resolution command exits with code 0, regardless of its stdout;
on a non-zero exit it returns failure together with the captured stderr
(possibly empty), and on success no error text. -/
theorem install_success_iff_exit_zero (env : Env) (path : List String)
    (code : Int) (out err : String)
    (h : run_command env ["dart", "pub", "get"] (some path) = ⟨code, out, err⟩) :
    ((install_package_deps env path).1 = true ↔ code = 0) ∧
      (code ≠ 0 → install_package_deps env path = (false, some err)) ∧
      (code = 0 → install_package_deps env path = (true, none)) := by
  by_cases hc : code = 0 <;> simp [install_package_deps, h, hc]

theorem install_success_iff_exit_zero_witness :
    run_command envGood ["dart", "pub", "get"]
        (some ["repo", "packages", "entidb_sync_client"]) =
      ⟨65, "", "resolution failed"⟩ ∧
      (((install_package_deps envGood ["repo", "packages", "entidb_sync_client"]).1 = true ↔
          (65 : Int) = 0) ∧
        ((65 : Int) ≠ 0 →
          install_package_deps envGood ["repo", "packages", "entidb_sync_client"] =
            (false, some "resolution failed")) ∧
        ((65 : Int) = 0 →
          install_package_deps envGood ["repo", "packages", "entidb_sync_client"] =
            (true, none))) :=
  ⟨by decide,
    install_success_iff_exit_zero envGood ["repo", "packages", "entidb_sync_client"]
      65 "" "resolution failed" (by decide)⟩

/-- The negation of the strict tuple comparison of the source agrees with
the standard numeric lexicographic less-or-equal, flipped. -/
theorem not_pyTupleLt_eq_numericLexLe (a b : List Int) :
    (!(pyTupleLt a b)) = numericLexLe b a := by
  induction a generalizing b with
  | nil => cases b <;> simp [pyTupleLt, numericLexLe]
  | cons x xs ih =>
    cases b with
    | nil => simp [pyTupleLt, numericLexLe]
    | cons y ys =>
      simp only [pyTupleLt, numericLexLe]
      rcases lt_trichotomy x y with h | h | h
      · simp [h, asymm h]
      · subst h
        simp [lt_irrefl, ih]
      · simp [h, asymm h]

/-- C6: on parsed version tuples of equal length, the at-least check the
orchestrator performs agrees with standard componentwise numeric ordering
(the minimum is less-or-equal the actual), not with any string ordering. -/
theorem isAtLeast_agrees_with_numeric_order (v1 v2 : String) (t1 t2 : List Int)
    (h1 : version_tuple v1 = some t1) (h2 : version_tuple v2 = some t2)
    (hlen : t1.length = t2.length) :
    isAtLeast t1 t2 = numericLexLe t2 t1 :=
  not_pyTupleLt_eq_numericLexLe t1 t2

theorem isAtLeast_agrees_with_numeric_order_witness :
    version_tuple "3.9.0" = some [3, 9, 0] ∧
      version_tuple "3.10.1" = some [3, 10, 1] ∧
      ([3, 9, 0] : List Int).length = ([3, 10, 1] : List Int).length ∧
      isAtLeast [3, 9, 0] [3, 10, 1] = numericLexLe [3, 10, 1] [3, 9, 0] ∧
      numericLexLe [3, 10, 1] [3, 9, 0] = false ∧
      isAtLeast [3, 10, 1] [3, 10, 1] = true :=
  ⟨by decide, by decide, rfl,
    isAtLeast_agrees_with_numeric_order "3.9.0" "3.10.1" [3, 9, 0] [3, 10, 1]
      (by decide) (by decide) rfl,
    by decide, by decide⟩

/-- C7 counterexample: the component "-1" is not a non-negative integer,
yet `version_tuple` accepts the string "3.-1.0" (the host integer
conversion accepts a sign), so parsing does not fail on every input with a
component that is not a non-negative integer. -/
theorem version_tuple_nonneg_claim_false :
    version_tuple "3.-1.0" = some [3, -1, 0] ∧
      ∃ c ∈ splitDot "3.-1.0".toList, specIsNonNegIntLiteral c = false := by
  decide

/-- Conversion of a component list fails exactly when some component is
rejected by the integer conversion. -/
theorem intList_none_iff (l : List (List Char)) :
    intList l = none ↔ ∃ c ∈ l, pyInt c = none := by
  induction l with
  | nil => simp [intList]
  | cons c rest ih =>
    cases hc : pyInt c with
    | none => simp [intList, hc]
    | some n =>
      cases hr : intList rest with
      | none =>
        obtain ⟨d, hd, hdn⟩ := ih.mp hr
        simp only [intList, hc, hr]
        exact iff_of_true trivial ⟨d, List.mem_cons_of_mem _ hd, hdn⟩
      | some t =>
        simp [intList, hc, hr, ← ih]

/-- On success, conversion returns exactly the componentwise integer
values. -/
theorem intList_some_map (l : List (List Char)) (t : List Int)
    (h : intList l = some t) : l.map pyInt = t.map some := by
  induction l generalizing t with
  | nil =>
    simp only [intList, Option.some_inj] at h
    subst h
    simp
  | cons c rest ih =>
    cases hc : pyInt c with
    | none => simp [intList, hc] at h
    | some n =>
      cases hr : intList rest with
      | none => simp [intList, hc, hr] at h
      | some t' =>
        simp only [intList, hc, hr, Option.some_inj] at h
        subst h
        simp [hc, ih t' hr]

/-- C7 amended: `version_tuple` fails exactly when some dot-separated
component is rejected by the host integer conversion (which also accepts
signed components and underscores between digits); on every other input it
returns the tuple of componentwise integer values. -/
theorem version_tuple_fails_iff_component_invalid (v : String) :
    (version_tuple v = none ↔ ∃ c ∈ splitDot v.toList, pyInt c = none) ∧
      ∀ t, version_tuple v = some t → (splitDot v.toList).map pyInt = t.map some :=
  ⟨intList_none_iff _, fun t h => intList_some_map _ t h⟩

theorem version_tuple_fails_iff_component_invalid_witness :
    (version_tuple "3.x.1" = none ↔ ∃ c ∈ splitDot "3.x.1".toList, pyInt c = none) ∧
      (splitDot "3.10.5".toList).map pyInt = ([3, 10, 5] : List Int).map some :=
  ⟨(version_tuple_fails_iff_component_invalid "3.x.1").1,
    (version_tuple_fails_iff_component_invalid "3.10.5").2 [3, 10, 5] (by decide)⟩

/-- C8 counterexample: with zero-padding (3, 10) would be at least
(3, 10, 0), but the comparison of the source treats the proper prefix
(3, 10) as strictly smaller, so the check rejects it. -/
theorem isAtLeast_padding_claim_false :
    isAtLeast [3, 10] [3, 10, 0] = false ∧
      specIsAtLeastPadded [3, 10] [3, 10, 0] = true := by
  decide

/-- A tuple extended by zeros never compares strictly below the original. -/
theorem pyTupleLt_append_replicate_self (t : List Int) (k : Nat) :
    pyTupleLt (t ++ List.replicate k 0) t = false := by
  induction t with
  | nil => cases k <;> rfl
  | cons a t ih => simp [pyTupleLt, lt_irrefl, ih]

/-- A tuple compares strictly below itself extended by at least one zero. -/
theorem pyTupleLt_self_append_replicate (t : List Int) (k : Nat) (hk : 0 < k) :
    pyTupleLt t (t ++ List.replicate k 0) = true := by
  induction t with
  | nil =>
    cases k with
    | zero => exact absurd hk (lt_irrefl 0)
    | succ k => rfl
  | cons a t ih => simp [pyTupleLt, lt_irrefl, ih]

/-- C8 amended: the comparison does not zero-pad; it is elementwise
lexicographic with a strictly shorter proper prefix comparing strictly
below.  Hence a tuple with trailing zeros appended is at least the
original, but the original is not at least the zero-extended one. -/
theorem isAtLeast_no_padding (t : List Int) (k : Nat) :
    isAtLeast (t ++ List.replicate k 0) t = true ∧
      (0 < k → isAtLeast t (t ++ List.replicate k 0) = false) := by
  refine ⟨?_, fun hk => ?_⟩
  · simp [isAtLeast, pyTupleLt_append_replicate_self]
  · simp [isAtLeast, pyTupleLt_self_append_replicate t k hk]

theorem isAtLeast_no_padding_witness :
    isAtLeast ([3, 10] ++ List.replicate 1 0) [3, 10] = true ∧
      0 < 1 ∧
      isAtLeast [3, 10] ([3, 10] ++ List.replicate 1 0) = false :=
  ⟨(isAtLeast_no_padding [3, 10] 1).1, by decide,
    (isAtLeast_no_padding [3, 10] 1).2 (by decide)⟩

/-- Closed form of the per-package loop: it records one outcome per listed
package in order (never stopping early), its success flag is the
conjunction of the incoming flag with every per-package success, and the
installer is invoked exactly in the existing directories, in order. -/
theorem setupLoop_eq (env : Env) (l : List String) (s : Bool)
    (outs : List (String × Bool)) (calls : List (List String)) :
    setupLoop env l (s, outs, calls) =
      (s && l.all (pkgOk env),
        outs ++ l.map (fun p => (p, pkgOk env p)),
        calls ++ ((l.filter fun p => env.pathExists (pkgPath env p)).map (pkgPath env))) := by
  induction l generalizing s outs calls with
  | nil => simp [setupLoop]
  | cons p rest ih =>
    by_cases hp : env.pathExists (pkgPath env p) = true
    · simp [setupLoop, hp, ih, pkgOk, Bool.and_assoc, List.append_assoc]
    · have hp' : env.pathExists (pkgPath env p) = false := by
        simpa using hp
      simp [setupLoop, hp, hp', ih, pkgOk, List.append_assoc]

/-- C1: once the toolchain checks pass, `main` records an outcome for every
package of the fixed list, in order, with no short-circuit; the outcome
recorded for a package is a failure exactly when its directory is missing or its
installation failed, and the exit status is 1 exactly when some outcome is
a failure, and 0 otherwise. -/
theorem main_processes_all_packages (env : Env) (v : String) (t : List Int)
    (hv : check_dart_version env = some v)
    (ht : version_tuple v = some t)
    (hge : pyTupleLt t min_version = false) :
    ∃ r : SetupOutcome, main env = some r ∧
      r.outcomes.map Prod.fst = packages ∧
      (r.exitCode = 1 ↔ ∃ pr ∈ r.outcomes, pr.2 = false) ∧
      (r.exitCode = 0 ∨ r.exitCode = 1) ∧
      ∀ pr ∈ r.outcomes,
        (pr.2 = false ↔
          (env.pathExists (pkgPath env pr.1) = false ∨
            (install_package_deps env (pkgPath env pr.1)).1 = false)) := by
  refine ⟨⟨if packages.all (pkgOk env) then 0 else 1,
    packages.map fun p => (p, pkgOk env p),
    (packages.filter fun p => env.pathExists (pkgPath env p)).map (pkgPath env)⟩,
    ?_, ?_, ?_, ?_, ?_⟩
  · simp [main, hv, ht, hge, setupLoop_eq]
  · have hcomp : (Prod.fst ∘ fun p : String => (p, pkgOk env p)) = id := rfl
    simp [hcomp]
  · by_cases hall : packages.all (pkgOk env) = true
    · simp only [hall, if_true]
      constructor
      · intro h
        exact absurd h (by decide)
      · rintro ⟨pr, hpr, h2⟩
        obtain ⟨p, hp, rfl⟩ := List.mem_map.mp hpr
        rw [List.all_eq_true] at hall
        have h2' : pkgOk env p = false := h2
        exact absurd (hall p hp) (by simp [h2'])
    · have hall' : packages.all (pkgOk env) = false := by
        simpa using hall
      simp only [hall', if_false]
      refine iff_of_true rfl ?_
      obtain ⟨p, hp, hnp⟩ := List.all_eq_false.mp hall'
      exact ⟨(p, pkgOk env p), List.mem_map_of_mem _ hp, by simpa using hnp⟩
  · by_cases hall : packages.all (pkgOk env) = true <;> simp [hall]
  · intro pr hpr
    obtain ⟨p, hp, rfl⟩ := List.mem_map.mp hpr
    simp only [pkgOk]
    exact Bool.and_eq_false_iff

theorem main_processes_all_packages_witness :
    check_dart_version envGood = some "3.10.5" ∧
      version_tuple "3.10.5" = some [3, 10, 5] ∧
      pyTupleLt [3, 10, 5] min_version = false ∧
      (∃ r : SetupOutcome, main envGood = some r ∧
        r.outcomes.map Prod.fst = packages ∧
        (r.exitCode = 1 ↔ ∃ pr ∈ r.outcomes, pr.2 = false) ∧
        (r.exitCode = 0 ∨ r.exitCode = 1) ∧
        ∀ pr ∈ r.outcomes,
          (pr.2 = false ↔
            (envGood.pathExists (pkgPath envGood pr.1) = false ∨
              (install_package_deps envGood (pkgPath envGood pr.1)).1 = false))) :=
  ⟨by decide, by decide, by decide,
    main_processes_all_packages envGood "3.10.5" [3, 10, 5]
      (by decide) (by decide) (by decide)⟩

/-- If the pattern matches at no start position, the search fails. -/
theorem searchVersionTriple_none_of_no_match (s : List Char)
    (h : ∀ i, matchVersionAt (s.drop i) = none) :
    searchVersionTriple s = none := by
  induction s with
  | nil => rfl
  | cons c rest ih =>
    have h0 : matchVersionAt (c :: rest) = none := h 0
    simp only [searchVersionTriple, h0]
    exact ih fun i => h (i + 1)

/-- A successful search returns the match at the least matching start
position: every earlier position fails to match. -/
theorem searchVersionTriple_some_first (s : List Char)
    (t : List Char × List Char × List Char)
    (h : searchVersionTriple s = some t) :
    ∃ i, matchVersionAt (s.drop i) = some t ∧
      ∀ j < i, matchVersionAt (s.drop j) = none := by
  induction s with
  | nil => simp [searchVersionTriple] at h
  | cons c rest ih =>
    cases hm : matchVersionAt (c :: rest) with
    | some t' =>
      have he : some t' = some t := by
        rw [← h]; simp [searchVersionTriple, hm]
      obtain rfl : t' = t := Option.some_inj.mp he
      exact ⟨0, hm, fun j hj => absurd hj (Nat.not_lt_zero j)⟩
    | none =>
      simp only [searchVersionTriple, hm] at h
      obtain ⟨i, hi, hj⟩ := ih h
      refine ⟨i + 1, hi, ?_⟩
      intro j hjlt
      cases j with
      | zero => exact hm
      | succ j' => exact hj j' (Nat.lt_of_succ_lt_succ hjlt)

/-- A failed search means no start position matches. -/
theorem searchVersionTriple_none_no_match (s : List Char)
    (h : searchVersionTriple s = none) :
    ∀ i, matchVersionAt (s.drop i) = none := by
  induction s with
  | nil =>
    intro i
    rw [List.drop_nil]
    decide
  | cons c rest ih =>
    cases hm : matchVersionAt (c :: rest) with
    | some t =>
      simp only [searchVersionTriple, hm] at h
      exact Option.noConfusion h
    | none =>
      simp only [searchVersionTriple, hm] at h
      intro i
      cases i with
      | zero => exact hm
      | succ j => exact ih h j

/-- C4: the probe returns absent when the version-query command exits
non-zero, and when it exits zero but no start position of the concatenated
stdout and stderr matches the version pattern; when it returns a version
string, that string is the rendering of the match at the leftmost matching
position of the concatenated text (first match wins). -/
theorem probe_detects_first_match (env : Env) (code : Int) (out err : String)
    (h : run_command env ["dart", "--version"] none = ⟨code, out, err⟩) :
    (code ≠ 0 → check_dart_version env = none) ∧
      ((∀ i, matchVersionAt ((out ++ err).toList.drop i) = none) →
        check_dart_version env = none) ∧
      (∀ i t, matchVersionAt ((out ++ err).toList.drop i) = some t → code = 0 →
        ∃ w, check_dart_version env = some w) ∧
      ∀ v, check_dart_version env = some v →
        ∃ i t, matchVersionAt ((out ++ err).toList.drop i) = some t ∧
          v = renderTriple t ∧
          ∀ j < i, matchVersionAt ((out ++ err).toList.drop j) = none := by
  refine ⟨fun hc => ?_, fun hno => ?_, fun i t hit hc => ?_, fun v hv => ?_⟩
  · simp [check_dart_version, h, hc]
  · by_cases hc : code = 0
    · have hno' : ∀ i, matchVersionAt ((out.data ++ err.data).drop i) = none := hno
      simp [check_dart_version, h, hc, searchVersionTriple_none_of_no_match _ hno']
    · simp [check_dart_version, h, hc]
  · cases hs : searchVersionTriple (out.data ++ err.data) with
    | some t' =>
      exact ⟨renderTriple t', by simp [check_dart_version, h, hc, hs]⟩
    | none =>
      have hnone := searchVersionTriple_none_no_match _ hs i
      have hit' : matchVersionAt ((out.data ++ err.data).drop i) = some t := hit
      rw [hnone] at hit'
      exact Option.noConfusion hit'
  · unfold check_dart_version at hv
    rw [h] at hv
    by_cases hc : code = 0
    · simp only [hc, ne_eq, not_true_eq_false, if_false, decide_False] at hv
      obtain ⟨t, hts, htv⟩ := Option.map_eq_some'.mp hv
      obtain ⟨i, hi, hj⟩ := searchVersionTriple_some_first _ t hts
      exact ⟨i, t, hi, htv.symm, hj⟩
    · simp [hc] at hv

theorem probe_detects_first_match_witness :
    run_command envGood ["dart", "--version"] none =
      ⟨0, "Dart SDK version: 3.10.5 (stable)\n", ""⟩ ∧
      (((0 : Int) ≠ 0 → check_dart_version envGood = none) ∧
        ((∀ i, matchVersionAt
            (("Dart SDK version: 3.10.5 (stable)\n" ++ "").toList.drop i) = none) →
          check_dart_version envGood = none) ∧
        (∀ i t, matchVersionAt
            (("Dart SDK version: 3.10.5 (stable)\n" ++ "").toList.drop i) = some t →
          (0 : Int) = 0 → ∃ w, check_dart_version envGood = some w) ∧
        ∀ v, check_dart_version envGood = some v →
          ∃ i t, matchVersionAt
              (("Dart SDK version: 3.10.5 (stable)\n" ++ "").toList.drop i) = some t ∧
            v = renderTriple t ∧
            ∀ j < i, matchVersionAt
              (("Dart SDK version: 3.10.5 (stable)\n" ++ "").toList.drop j) = none) :=
  ⟨by decide,
    probe_detects_first_match envGood 0 "Dart SDK version: 3.10.5 (stable)\n" "" (by decide)⟩

/-- A digit character is not a dot. -/
theorem digit_ne_dot (c : Char) (h : c.isDigit = true) : c ≠ '.' := by
  intro e
  subst e
  exact absurd h (by decide)

/-- A digit character is not whitespace. -/
theorem digit_not_ws (c : Char) (h : c.isDigit = true) : isPyWs c = false := by
  have hw : ¬(c = ' ' ∨ c = '\t' ∨ c = '\n' ∨ c = '\r' ∨ c = '\x0b' ∨ c = '\x0c') := by
    rintro (rfl | rfl | rfl | rfl | rfl | rfl) <;> exact absurd h (by decide)
  push_neg at hw
  obtain ⟨h1, h2, h3, h4, h5, h6⟩ := hw
  simp [isPyWs, h1, h2, h3, h4, h5, h6]

/-- A successful digit-run read yields a nonempty all-digit run. -/
theorem readRun_shape (l d r : List Char) (h : readRun l = some (d, r)) :
    d ≠ [] ∧ ∀ c ∈ d, c.isDigit = true := by
  cases htw : l.takeWhile Char.isDigit with
  | nil => simp [readRun, htw] at h
  | cons c cs =>
    simp only [readRun, htw] at h
    obtain ⟨rfl, rfl⟩ : c :: cs = d ∧ l.dropWhile Char.isDigit = r := by
      constructor <;> [exact congrArg Prod.fst (Option.some_inj.mp h);
        exact congrArg Prod.snd (Option.some_inj.mp h)]
    refine ⟨by simp, fun x hx => ?_⟩
    exact List.mem_takeWhile_imp (htw ▸ hx)

/-- A successful position match yields three nonempty all-digit runs. -/
theorem matchVersionAt_shape (s : List Char) (d1 d2 d3 : List Char)
    (h : matchVersionAt s = some (d1, d2, d3)) :
    (d1 ≠ [] ∧ ∀ c ∈ d1, c.isDigit = true) ∧
      (d2 ≠ [] ∧ ∀ c ∈ d2, c.isDigit = true) ∧
      (d3 ≠ [] ∧ ∀ c ∈ d3, c.isDigit = true) := by
  unfold matchVersionAt at h
  obtain ⟨rest, hdl, h⟩ := Option.bind_eq_some.mp h
  obtain ⟨⟨e1, r1⟩, hr1, h⟩ := Option.bind_eq_some.mp h
  obtain ⟨r2, hx1, h⟩ := Option.bind_eq_some.mp h
  obtain ⟨⟨e2, r3⟩, hr2, h⟩ := Option.bind_eq_some.mp h
  obtain ⟨r4, hx2, h⟩ := Option.bind_eq_some.mp h
  obtain ⟨⟨e3, r5⟩, hr3, h⟩ := Option.map_eq_some'.mp h
  obtain ⟨rfl, rfl, rfl⟩ : e1 = d1 ∧ e2 = d2 ∧ e3 = d3 := by
    refine ⟨congrArg (fun q => q.1) h, congrArg (fun q => q.2.1) h,
      congrArg (fun q => q.2.2) h⟩
  exact ⟨readRun_shape _ _ _ hr1, readRun_shape _ _ _ hr2,
    readRun_shape _ _ _ hr3⟩

/-- Splitting a dot-free piece gives that single piece. -/
theorem splitDot_no_dot (d : List Char) (hd : ∀ c ∈ d, c ≠ '.') :
    splitDot d = [d] := by
  induction d with
  | nil => rfl
  | cons c r ih =>
    have hc : c ≠ '.' := hd c (List.mem_cons_self c r)
    have ihr := ih fun x hx => hd x (List.mem_cons_of_mem c hx)
    simp [splitDot, hc, ihr]

/-- Splitting a dot-free piece followed by a dot peels off that piece. -/
theorem splitDot_append_dot (d rest : List Char) (hd : ∀ c ∈ d, c ≠ '.') :
    splitDot (d ++ '.' :: rest) = d :: splitDot rest := by
  induction d with
  | nil => simp [splitDot]
  | cons c r ih =>
    have hc : c ≠ '.' := hd c (List.mem_cons_self c r)
    have ihr := ih fun x hx => hd x (List.mem_cons_of_mem c hx)
    simp [splitDot, hc, ihr]

/-- The digit-part reader accepts any all-digit continuation. -/
theorem digitsAfter_all_digits (l : List Char) (hl : ∀ c ∈ l, c.isDigit = true) :
    ∀ acc : Nat, ∃ n, digitsAfter acc l = some n := by
  induction l with
  | nil => exact fun acc => ⟨acc, rfl⟩
  | cons c r ih =>
    intro acc
    have hc : c.isDigit = true := hl c (List.mem_cons_self c r)
    have hcu : c ≠ '_' := by
      intro e
      subst e
      exact absurd hc (by decide)
    obtain ⟨n, hn⟩ := ih (fun x hx => hl x (List.mem_cons_of_mem c hx))
      (acc * 10 + digitVal c)
    refine ⟨n, ?_⟩
    rw [digitsAfter.eq_def]
    simp only [if_neg hcu, if_pos hc]
    exact hn

/-- The digit part accepts any nonempty all-digit run. -/
theorem digitPart_all_digits (d : List Char) (hne : d ≠ [])
    (hd : ∀ c ∈ d, c.isDigit = true) : ∃ n, digitPart d = some n := by
  cases d with
  | nil => exact absurd rfl hne
  | cons c r =>
    have hc : c.isDigit = true := hd c (List.mem_cons_self c r)
    obtain ⟨n, hn⟩ := digitsAfter_all_digits r
      (fun x hx => hd x (List.mem_cons_of_mem c hx)) (digitVal c)
    exact ⟨n, by simp [digitPart, hc, hn]⟩

/-- Dropping whitespace from a whitespace-free list changes nothing. -/
theorem dropWhile_ws_eq_self (l : List Char) (h : ∀ c ∈ l, isPyWs c = false) :
    l.dropWhile isPyWs = l := by
  cases l with
  | nil => rfl
  | cons c r =>
    rw [List.dropWhile_cons_of_neg]
    simp [h c (List.mem_cons_self c r)]

/-- Stripping whitespace from a whitespace-free list changes nothing. -/
theorem trimWs_eq_self (l : List Char) (h : ∀ c ∈ l, isPyWs c = false) :
    trimWs l = l := by
  unfold trimWs dropWs
  rw [dropWhile_ws_eq_self l.reverse fun c hc => h c (List.mem_reverse.mp hc),
    List.reverse_reverse, dropWhile_ws_eq_self l h]

/-- The integer conversion accepts any nonempty all-digit run, returning a
non-negative value. -/
theorem pyInt_digits (d : List Char) (hne : d ≠ [])
    (hd : ∀ c ∈ d, c.isDigit = true) : ∃ n : Nat, pyInt d = some (n : Int) := by
  unfold pyInt
  rw [trimWs_eq_self d fun c hc => digit_not_ws c (hd c hc)]
  cases d with
  | nil => exact absurd rfl hne
  | cons c r =>
    have hc : c.isDigit = true := hd c (List.mem_cons_self c r)
    have hplus : c ≠ '+' := by
      intro e; subst e; exact absurd hc (by decide)
    have hminus : c ≠ '-' := by
      intro e; subst e; exact absurd hc (by decide)
    obtain ⟨n, hn⟩ := digitPart_all_digits (c :: r) (by simp) hd
    exact ⟨n, by simp [pyIntCore, hplus, hminus, hn]⟩

/-- Parsing the rendered capture group yields the three-component tuple of
non-negative values. -/
theorem version_tuple_renderTriple (d1 d2 d3 : List Char)
    (h1 : d1 ≠ []) (h2 : d2 ≠ []) (h3 : d3 ≠ [])
    (hd1 : ∀ c ∈ d1, c.isDigit = true) (hd2 : ∀ c ∈ d2, c.isDigit = true)
    (hd3 : ∀ c ∈ d3, c.isDigit = true) :
    ∃ n1 n2 n3 : Nat,
      version_tuple (renderTriple (d1, d2, d3)) =
        some [(n1 : Int), (n2 : Int), (n3 : Int)] := by
  obtain ⟨n1, hn1⟩ := pyInt_digits d1 h1 hd1
  obtain ⟨n2, hn2⟩ := pyInt_digits d2 h2 hd2
  obtain ⟨n3, hn3⟩ := pyInt_digits d3 h3 hd3
  refine ⟨n1, n2, n3, ?_⟩
  show intList (splitDot (d1 ++ '.' :: d2 ++ '.' :: d3)) =
    some [(n1 : Int), (n2 : Int), (n3 : Int)]
  rw [List.append_assoc, List.cons_append,
    splitDot_append_dot d1 _ fun c hc => digit_ne_dot c (hd1 c hc),
    splitDot_append_dot d2 _ fun c hc => digit_ne_dot c (hd2 c hc),
    splitDot_no_dot d3 fun c hc => digit_ne_dot c (hd3 c hc)]
  simp [intList, hn1, hn2, hn3]

/-- When the probe result parses, no branch of `main` yields the
uncaught-fault value. -/
theorem main_ne_none_of_parses (env : Env) (v : String) (t : List Int)
    (hv : check_dart_version env = some v) (ht : version_tuple v = some t) :
    main env ≠ none := by
  simp only [main, hv, ht]
  rcases hsl : setupLoop env packages (true, [], []) with ⟨a, b, c⟩
  by_cases hlt : pyTupleLt t min_version = true
  · simp [hlt]
  · simp [hlt, hsl]

/-- C10: every version string the probe returns is three dot-separated
nonempty digit runs, so parsing it never fails, yields a length-3 tuple of
non-negative components matching the length of the fixed minimum, and the
uncaught-fault branch of `main` is unreachable. -/
theorem probe_version_always_parses (env : Env) (v : String)
    (h : check_dart_version env = some v) :
    (∃ d1 d2 d3 : List Char, d1 ≠ [] ∧ d2 ≠ [] ∧ d3 ≠ [] ∧
      (∀ c ∈ d1, c.isDigit = true) ∧ (∀ c ∈ d2, c.isDigit = true) ∧
      (∀ c ∈ d3, c.isDigit = true) ∧
      v.toList = d1 ++ '.' :: d2 ++ '.' :: d3) ∧
      (∃ t, version_tuple v = some t ∧ t.length = 3 ∧ (∀ x ∈ t, 0 ≤ x) ∧
        t.length = min_version.length) ∧
      main env ≠ none := by
  have hv := h
  simp only [check_dart_version] at hv
  split at hv
  · simp at hv
  · obtain ⟨t, hts, htv⟩ := Option.map_eq_some'.mp hv
    obtain ⟨i, hi, -⟩ := searchVersionTriple_some_first _ t hts
    obtain ⟨d1, d2, d3⟩ := t
    obtain ⟨⟨h1, hd1⟩, ⟨h2, hd2⟩, ⟨h3, hd3⟩⟩ := matchVersionAt_shape _ _ _ _ hi
    obtain ⟨n1, n2, n3, hvt⟩ :=
      version_tuple_renderTriple d1 d2 d3 h1 h2 h3 hd1 hd2 hd3
    subst htv
    refine ⟨⟨d1, d2, d3, h1, h2, h3, hd1, hd2, hd3, rfl⟩, ?_, ?_⟩
    · refine ⟨[(n1 : Int), (n2 : Int), (n3 : Int)], hvt, rfl, ?_, rfl⟩
      intro x hx
      simp only [List.mem_cons, List.not_mem_nil, or_false] at hx
      rcases hx with rfl | rfl | rfl <;> exact Int.natCast_nonneg _
    · exact main_ne_none_of_parses env _ _ h hvt

theorem probe_version_always_parses_witness :
    check_dart_version envGood = some "3.10.5" ∧
      ((∃ d1 d2 d3 : List Char, d1 ≠ [] ∧ d2 ≠ [] ∧ d3 ≠ [] ∧
        (∀ c ∈ d1, c.isDigit = true) ∧ (∀ c ∈ d2, c.isDigit = true) ∧
        (∀ c ∈ d3, c.isDigit = true) ∧
        ("3.10.5" : String).toList = d1 ++ '.' :: d2 ++ '.' :: d3) ∧
        (∃ t, version_tuple "3.10.5" = some t ∧ t.length = 3 ∧
          (∀ x ∈ t, 0 ≤ x) ∧ t.length = min_version.length) ∧
        main envGood ≠ none) :=
  ⟨by decide, probe_version_always_parses envGood "3.10.5" (by decide)⟩

end EntidbSetup
